import Mathlib

/-!
Verification development for the compass dispatch/collection layer
(`mflux/compass/main.py`).

The embedding models:
* tab-delimited result tables (`pandas` data frames restricted to what the
  code uses: ordered column labels, labelled rows, missing values),
* `pd.read_table(..., index_col=0)` and `DataFrame.to_csv(sep="\t")` on such
  tables,
* the per-sample gather loop and the column-wise `pd.concat` of
  `collectCompassResults`, over an explicit association-list filesystem,
* argument post-processing (`parseArgs`), the dispatch decision in `entry`,
  the per-job wrapper `_parallel_map_fun`, and the local worker loop.
-/

set_option autoImplicit false

/-- A data frame as used by the collection code: ordered column labels and
ordered rows; each row is a label together with one cell per column, where
`none` models a missing value (NaN). -/
structure Table where
  cols : List String
  rows : List (String × List (Option String))
deriving DecidableEq, Inhabited, Repr

/-- `pd.DataFrame(columns=[sample_name])`: the empty placeholder appended when
reading a per-sample result file fails. -/
def emptyTable (name : String) : Table :=
  { cols := [name], rows := [] }

/-- The row labels (the index) of a table. -/
def Table.labels (t : Table) : List String :=
  t.rows.map Prod.fst

/-- The cells of row `r` in `t`, or a full row of missing values when `t` has
no row labelled `r` (this is how `pd.concat(axis=1)` pads absent rows). -/
def rowOf (t : Table) (r : String) : List (Option String) :=
  match t.rows.find? (fun p => decide (p.1 = r)) with
  | some p => p.2
  | none => List.replicate t.cols.length none

/-- Concatenation of a list of lists (spelled out so that its equations are
definitional). -/
def joinL {α : Type} : List (List α) → List α
  | [] => []
  | x :: xs => x ++ joinL xs

/-- `pd.concat(ts, axis=1)` on a nonempty list: columns are concatenated in
order, the merged index is the union of the row labels, and a frame missing a
row contributes missing values for its columns on that row. -/
def mergeTables (ts : List Table) : Table :=
  { cols := joinL (ts.map Table.cols)
    rows := ((joinL (ts.map Table.labels)).dedup).map
      (fun r => (r, joinL (ts.map (fun t => rowOf t r)))) }

/-- `pd.concat` raises `ValueError` when given no objects to concatenate; on a
nonempty list it merges column-wise. -/
def concatTables (ts : List Table) : Option Table :=
  match ts with
  | [] => none
  | _ :: _ => some (mergeTables ts)

/-- Cell of table `t` at row label `r` and column position `j`
(`none` when the row is absent or the value is missing). -/
def Table.cell (t : Table) (r : String) (j : Nat) : Option String :=
  match t.rows.find? (fun p => decide (p.1 = r)) with
  | some p => p.2.getD j none
  | none => none

/-- The gather loop of `collectCompassResults` for one result kind: walking the
sample names in matrix-column order with their indices, append the
successfully read table, or an empty placeholder column named after the sample
on any read failure. -/
def gatherKind (read : Nat → Option Table) : List String → Nat → List Table
  | [], _ => []
  | name :: rest, i =>
      (match read i with
       | some t => t
       | none => emptyTable name) :: gatherKind read rest (i + 1)

/-! ### Tab-delimited files -/

/-- Split a character list at every occurrence of `c` (the separator is
dropped; `n+1` fields for `n` separators). -/
def splitOnChar (c : Char) : List Char → List (List Char)
  | [] => [[]]
  | x :: xs =>
      if x = c then [] :: splitOnChar c xs
      else
        match splitOnChar c xs with
        | [] => [[x]]
        | y :: ys => (x :: y) :: ys

/-- An empty field is a missing value (NaN); anything else is data. -/
def parseCell (s : String) : Option String :=
  if s = "" then none else some s

/-- The fields of one line of a tab-delimited file. -/
def tabFields (line : List Char) : List String :=
  (splitOnChar '\t' line).map (fun cs => String.mk cs)

/-- One data row: first field is the row label, remaining fields the cells;
the row must have exactly one cell per column. -/
def parseRow (ncols : Nat) (line : List Char) : Option (String × List (Option String)) :=
  match tabFields line with
  | [] => none
  | lab :: cells =>
      if cells.length = ncols then some (lab, cells.map parseCell) else none

/-- `pd.read_table(path, index_col=0)`: the header line yields the index name
(dropped) and the column labels; every following non-blank line is one row.
An empty file or a malformed row fails (pandas raises). -/
def parseTable (s : String) : Option Table :=
  if s.data = [] then none
  else
    match (splitOnChar '\n' s.data).filter (fun l => ¬(l = [])) with
    | [] => none
    | header :: body =>
        match tabFields header with
        | [] => none
        | _idxName :: cols =>
            (body.mapM (parseRow cols.length)).map
              (fun rs => { cols := cols, rows := rs })

/-- A missing value is written as the empty field. -/
def renderCell : Option String → String
  | some v => v
  | none => ""

/-- `DataFrame.to_csv(path, sep="\t")`: header line is the (empty) index name
followed by the column labels; then one line per row. -/
def renderTable (t : Table) : String :=
  String.intercalate "\n"
    ((String.intercalate "\t" ("" :: t.cols)) ::
      t.rows.map (fun p => String.intercalate "\t" (p.1 :: p.2.map renderCell)))

/-! ### Filesystem model -/

/-- A filesystem path, as a list of components (`os.path.join`). -/
abbrev FPath := List String

/-- The filesystem: an association list from paths to file contents; a write
prepends, a lookup takes the first match. -/
abbrev FS := List (FPath × String)

/-- Contents of the file at `p`, if present. -/
def FS.lookup (fs : FS) (p : FPath) : Option String :=
  match fs with
  | [] => none
  | (q, c) :: rest => if q = p then some c else FS.lookup rest p

/-- The three per-sample result tables collected by compass. -/
inductive ResultKind where
  | reactions
  | secretions
  | uptake
deriving DecidableEq, Repr

/-- The fixed, kind-specific filename. -/
def ResultKind.file : ResultKind → String
  | .reactions => "reactions.txt"
  | .secretions => "secretions.txt"
  | .uptake => "uptake.txt"

/-- `os.path.join(temp_dir, 'sample' + str(i))`: the work directory of sample
`i`, named from the index. -/
def sampleDir (tempDir : FPath) (i : Nat) : FPath :=
  tempDir ++ ["sample" ++ toString i]

/-- The per-sample result file of one kind inside the sample's work
directory. -/
def samplePath (tempDir : FPath) (i : Nat) (k : ResultKind) : FPath :=
  sampleDir tempDir i ++ [k.file]

/-- The merged output file of one kind in the output directory. -/
def outPath (outDir : FPath) (k : ResultKind) : FPath :=
  outDir ++ [k.file]

/-- The ambient I/O environment: paths at which a write raises `OSError`
(permissions, full disk, ...). -/
structure Env where
  badPaths : List FPath

/-- `DataFrame.to_csv` to path `p`: fails when the path is unwritable,
otherwise records the new contents. -/
def writeFile (env : Env) (fs : FS) (p : FPath) (c : String) : Option FS :=
  if p ∈ env.badPaths then none else some ((p, c) :: fs)

/-- Reading one per-sample result table: absent file, absent directory and
unparsable contents all surface as `none` (the bare `except:` catches any of
them). -/
def readSampleTable (fs : FS) (tempDir : FPath) (i : Nat) (k : ResultKind) : Option Table :=
  (FS.lookup fs (samplePath tempDir i k)).bind parseTable

/-- How a collection run can abort: the data matrix unreadable, `pd.concat`
with no objects, or a failed output write. -/
inductive CollectError where
  | dataFormat
  | mergeError
  | outputWrite
deriving DecidableEq, Repr

/-- Arguments of `collectCompassResults`. -/
structure CollectCfg where
  dataPath : FPath
  tempDir : FPath
  outDir : FPath
deriving DecidableEq, Repr

/-- The merged table of one kind, as gathered from the filesystem for the
given sample names. -/
def mergedTable (fs : FS) (cfg : CollectCfg) (names : List String) (k : ResultKind) : Table :=
  mergeTables (gatherKind (fun i => readSampleTable fs cfg.tempDir i k) names 0)

/-- `collectCompassResults(data, temp_dir, out_dir)`: read the expression
matrix header for the sample names; per sample and kind read the result table,
substituting an empty placeholder column on failure; then, kind by kind in the
fixed order reactions, secretions, uptake, concatenate column-wise and write
the merged table. An uncaught exception aborts the run with the filesystem as
written so far. -/
def collectCompassResults (cfg : CollectCfg) (env : Env) (fs : FS) :
    Except (CollectError × FS) FS :=
  match (FS.lookup fs cfg.dataPath).bind parseTable with
  | none => .error (.dataFormat, fs)
  | some expression =>
    match concatTables (gatherKind (fun i => readSampleTable fs cfg.tempDir i .reactions) expression.cols 0) with
    | none => .error (.mergeError, fs)
    | some tR =>
      match writeFile env fs (outPath cfg.outDir .reactions) (renderTable tR) with
      | none => .error (.outputWrite, fs)
      | some fs1 =>
        match concatTables (gatherKind (fun i => readSampleTable fs cfg.tempDir i .secretions) expression.cols 0) with
        | none => .error (.mergeError, fs1)
        | some tS =>
          match writeFile env fs1 (outPath cfg.outDir .secretions) (renderTable tS) with
          | none => .error (.outputWrite, fs1)
          | some fs2 =>
            match concatTables (gatherKind (fun i => readSampleTable fs cfg.tempDir i .uptake) expression.cols 0) with
            | none => .error (.mergeError, fs2)
            | some tU =>
              match writeFile env fs2 (outPath cfg.outDir .uptake) (renderTable tU) with
              | none => .error (.outputWrite, fs2)
              | some fs3 => .ok fs3

/-- The filesystem after a collection run, whether it completed or aborted. -/
def collectResultFS : Except (CollectError × FS) FS → FS
  | .ok fs => fs
  | .error (_, fs) => fs

/-- Whether a fallible computation completed without raising. -/
def isOkE {ε α : Type} : Except ε α → Bool
  | .ok _ => true
  | .error _ => false

/-! ### Command-line arguments and dispatch -/

/-- The command-line arguments as argparse delivers them (paths already made
absolute; optional arguments `none` when not supplied). -/
structure RawArgs where
  data : FPath
  model : String
  media : Option String
  output_dir : FPath
  temp_dir : FPath
  torque_queue : Option String
  num_processes : Option Int
  lambda_ : Rat
  single_sample : Option Nat
  collect : Bool
deriving DecidableEq

/-- The arguments after the post-processing in `parseArgs`. -/
structure ParsedArgs where
  data : FPath
  model : String
  media : String
  output_dir : FPath
  temp_dir : FPath
  torque_queue : Option String
  num_processes : Option Int
  lambda_ : Rat
  single_sample : Option Nat
  collect : Bool
deriving DecidableEq

/-- `if args['media'] is None: args['media'] = 'None'`. -/
def resolveMedia (m : Option String) : String :=
  match m with
  | none => "None"
  | some s => s

/-- The post-processing of `parseArgs`: default the media argument and reject
a smoothing parameter outside `[0, 1]` (`parser.error` aborts). -/
def parseArgs (raw : RawArgs) : Except String ParsedArgs :=
  if raw.lambda_ < 0 ∨ raw.lambda_ > 1 then
    .error "lambda parameter cannot be less than 0 or greater than 1"
  else
    .ok { data := raw.data, model := raw.model, media := resolveMedia raw.media,
          output_dir := raw.output_dir, temp_dir := raw.temp_dir,
          torque_queue := raw.torque_queue, num_processes := raw.num_processes,
          lambda_ := raw.lambda_, single_sample := raw.single_sample,
          collect := raw.collect }

/-- One invocation of the external solver `singleSampleCompass`: the argument
tuple the call site passes. -/
structure SolverCall where
  data : FPath
  model : String
  media : String
  directory : FPath
  lambda_ : Rat
  sample_index : Nat
deriving DecidableEq

/-- One job as actually executed: the directory created beforehand (if any),
the stdout/stderr capture files the streams are redirected into (if any), and
the solver invocation itself. -/
structure JobExec where
  createdDir : Option FPath
  redirects : Option (FPath × FPath)
  call : SolverCall
deriving DecidableEq

/-- The single-sample branch of `entry`: the solver is called directly with
the temp directory as its destination, with no directory creation and no
stream redirection. -/
def singleJob (args : ParsedArgs) (i : Nat) : JobExec :=
  { createdDir := none
    redirects := none
    call := { data := args.data, model := args.model, media := args.media,
              directory := args.temp_dir, lambda_ := args.lambda_,
              sample_index := i } }

/-- `_parallel_map_fun(i, ...)`: build `temp_dir/sample<i>` (created if
absent), redirect stdout and stderr into `out.log` and `err.log` inside it,
and invoke the solver with that directory as destination. -/
def parallelMapFun (data : FPath) (model media : String) (temp_dir : FPath)
    (lambda_ : Rat) (i : Nat) : JobExec :=
  { createdDir := some (sampleDir temp_dir i)
    redirects := some (sampleDir temp_dir i ++ ["out.log"],
                       sampleDir temp_dir i ++ ["err.log"])
    call := { data := data, model := model, media := media,
              directory := sampleDir temp_dir i, lambda_ := lambda_,
              sample_index := i } }

/-- The argument tuple of `submitCompassTorque`. -/
structure TorqueSubmit where
  data : FPath
  model : String
  media : String
  temp_dir : FPath
  output_dir : FPath
  lambda_ : Rat
  queue : String
deriving DecidableEq

/-- What `entry` decides to do after parsing arguments. -/
inductive EntryAction where
  | singleSample (j : JobExec)
  | torque (t : TorqueSubmit)
  | collectOnly (dataPath tempDir outDir : FPath)
  | localBatch (numProcesses : Int) (jobs : List JobExec)
deriving DecidableEq

/-- Every media identity handed to a solver invocation or queue submission by
an entry action. -/
def EntryAction.medias : EntryAction → List String
  | .singleSample j => [j.call.media]
  | .torque t => [t.media]
  | .collectOnly _ _ _ => []
  | .localBatch _ jobs => jobs.map (fun j => j.call.media)

/-- The worker-count resolution in `entry`: default to `cpu_count()` when
unspecified, then cap at `cpu_count()`. -/
def resolveNumProcesses (requested : Option Int) (cpu : Int) : Int :=
  let np := match requested with
    | none => cpu
    | some w => w
  if np > cpu then cpu else np

/-- The dispatch decision of `entry`: single-sample mode, Torque submission,
collect-only mode, or a local batch of one job per sample
(`cpu` is `multiprocessing.cpu_count()`, `nSamples` the number of matrix
columns). -/
def entry (args : ParsedArgs) (cpu : Int) (nSamples : Nat) : EntryAction :=
  match args.single_sample with
  | some i => .singleSample (singleJob args i)
  | none =>
    match args.torque_queue with
    | some q =>
        .torque { data := args.data, model := args.model, media := args.media,
                  temp_dir := args.temp_dir, output_dir := args.output_dir,
                  lambda_ := args.lambda_, queue := q }
    | none =>
        if args.collect then .collectOnly args.data args.temp_dir args.output_dir
        else
          .localBatch (resolveNumProcesses args.num_processes cpu)
            ((List.range nSamples).map
              (parallelMapFun args.data args.model args.media args.temp_dir args.lambda_))

/-- The local dispatch loop over a list of sample indices: run each job in
turn, counting completed jobs; an exception raised by a job propagates and
terminates the run. -/
def runJobs (solve : Nat → Except String Unit) : List Nat → Nat → Except String Nat
  | [], completed => .ok completed
  | i :: rest, completed =>
      match solve i with
      | .error e => .error e
      | .ok _ => runJobs solve rest (completed + 1)

/-- The local batch of `entry`: map the per-sample solve over all sample
indices through the worker pool, advancing the progress count on each
completion; a raising job aborts the batch. -/
def runLocalBatch (solve : Nat → Except String Unit) (n : Nat) : Except String Nat :=
  runJobs solve (List.range n) 0

/-! ### Concrete inputs used to instantiate the theorems -/

/-- A read function for which sample 0 succeeds with a two-row, one-column
table and every other sample fails. -/
def readW3 : Nat → Option Table
  | 0 => some { cols := ["s1"], rows := [("r1", [some "1.0"]), ("r2", [some "2.0"])] }
  | _ + 1 => none

/-- A read function for which sample 0 succeeds with a table whose stored
column label differs from the header sample name, and every other sample
fails. -/
def readW9 : Nat → Option Table
  | 0 => some { cols := ["weird"], rows := [] }
  | _ + 1 => none

/-- A per-sample solve in which job 1 raises and all other jobs succeed. -/
def solveW6 : Nat → Except String Unit
  | 1 => .error "boom"
  | _ => .ok ()

/-- Concrete parsed arguments for a local batch run. -/
def argsW7 : ParsedArgs :=
  { data := ["d"], model := "RECON1_mat", media := "None", output_dir := ["o"],
    temp_dir := ["t"], torque_queue := none, num_processes := none,
    lambda_ := 0, single_sample := none, collect := false }

/-- Concrete parsed arguments for a single-sample run of sample 2. -/
def argsW10 : ParsedArgs :=
  { data := ["d"], model := "RECON1_mat", media := "None", output_dir := ["o"],
    temp_dir := ["t"], torque_queue := none, num_processes := none,
    lambda_ := 0, single_sample := some 2, collect := false }

/-- Concrete raw arguments with no media supplied, dispatching to
single-sample mode. -/
def rawNoMedia : RawArgs :=
  { data := ["d"], model := "RECON1_mat", media := none, output_dir := ["o"],
    temp_dir := ["t"], torque_queue := none, num_processes := none,
    lambda_ := 0, single_sample := some 0, collect := false }

/-- The parsed form of `rawNoMedia`. -/
def parsedNoMedia : ParsedArgs :=
  { data := ["d"], model := "RECON1_mat", media := "None", output_dir := ["o"],
    temp_dir := ["t"], torque_queue := none, num_processes := none,
    lambda_ := 0, single_sample := some 0, collect := false }

/-- A concrete collection configuration. -/
def cfgW8 : CollectCfg :=
  { dataPath := ["d"], tempDir := ["t"], outDir := ["o"] }

/-- An environment in which every path is writable. -/
def envW8 : Env := { badPaths := [] }

/-- A filesystem with a one-sample matrix and a readable reactions table for
sample 0. -/
def fsW8 : FS :=
  [(["d"], "gene\ts1"), (["t", "sample0", "reactions.txt"], "r\ts1\ng1\t1.5")]

/-! ### Basic lemmas about the table operations -/

theorem joinL_nil {α : Type} : joinL ([] : List (List α)) = [] := rfl

theorem joinL_cons {α : Type} (x : List α) (xs : List (List α)) :
    joinL (x :: xs) = x ++ joinL xs := rfl

theorem mem_joinL {α : Type} {a : α} : ∀ {ls : List (List α)},
    a ∈ joinL ls ↔ ∃ l ∈ ls, a ∈ l := by
  intro ls
  induction ls with
  | nil => simp [joinL]
  | cons x xs ih => simp [joinL_cons, ih]

theorem joinL_getD_len1 {α : Type} (d : α) :
    ∀ (blocks : List (List α)) (i : Nat), (∀ b ∈ blocks, b.length = 1) →
      i < blocks.length → (joinL blocks).getD i d = (blocks.getD i []).getD 0 d := by
  intro blocks
  induction blocks with
  | nil => intro i _ hi; exact absurd hi (by simp)
  | cons b bs ih =>
      intro i h1 hi
      obtain ⟨a, rfl⟩ := List.length_eq_one.mp (h1 b (by simp))
      match i with
      | 0 => simp [joinL_cons]
      | i + 1 =>
          have hi' : i < bs.length := by simpa using hi
          simp only [joinL_cons, List.singleton_append, List.getD_cons_succ]
          exact ih i (fun b hb => h1 b (by simp [hb])) hi'

theorem getD_map_of_lt {α β : Type} (f : α → β) (d : β) (d₀ : α) :
    ∀ (l : List α) (i : Nat), i < l.length → (l.map f).getD i d = f (l.getD i d₀) := by
  intro l
  induction l with
  | nil => intro i hi; exact absurd hi (by simp)
  | cons x xs ih =>
      intro i hi
      match i with
      | 0 => simp
      | i + 1 => simpa using ih i (by simpa using hi)

theorem gatherKind_length (read : Nat → Option Table) :
    ∀ (names : List String) (start : Nat),
      (gatherKind read names start).length = names.length := by
  intro names
  induction names with
  | nil => intro start; rfl
  | cons name rest ih => intro start; simp [gatherKind, ih]

theorem gatherKind_getD (read : Nat → Option Table) :
    ∀ (names : List String) (start i : Nat), i < names.length →
      (gatherKind read names start).getD i default =
        match read (start + i) with
        | some t => t
        | none => emptyTable (names.getD i "") := by
  intro names
  induction names with
  | nil => intro start i hi; exact absurd hi (by simp)
  | cons name rest ih =>
      intro start i hi
      match i with
      | 0 => simp [gatherKind]
      | i + 1 =>
          have h : start + (i + 1) = (start + 1) + i := by omega
          simp only [gatherKind, List.getD_cons_succ, h]
          exact ih (start + 1) i (by simpa using hi)

theorem mem_gatherKind (read : Nat → Option Table) :
    ∀ (names : List String) (start : Nat) (t : Table),
      t ∈ gatherKind read names start ↔
        ∃ k, k < names.length ∧
          (read (start + k) = some t ∨
           (read (start + k) = none ∧ t = emptyTable (names.getD k ""))) := by
  intro names
  induction names with
  | nil => intro start t; simp [gatherKind]
  | cons name rest ih =>
      intro start t
      simp only [gatherKind, List.mem_cons, ih (start + 1) t]
      constructor
      · rintro (rfl | ⟨k, hk, hor⟩)
        · refine ⟨0, by simp, ?_⟩
          rw [Nat.add_zero]
          cases hr : read start with
          | some u => left; simp
          | none => right; exact ⟨rfl, by simp⟩
        · refine ⟨k + 1, ?_, ?_⟩
          · simp only [List.length_cons]; omega
          · have h : start + (k + 1) = (start + 1) + k := by omega
            rw [h]
            simpa using hor
      · rintro ⟨k, hk, hor⟩
        match k with
        | 0 =>
            left
            rw [Nat.add_zero] at hor
            rcases hor with h | ⟨h, rfl⟩
            · simp [h]
            · simp [h]
        | k + 1 =>
            right
            refine ⟨k, ?_, ?_⟩
            · simp only [List.length_cons] at hk; omega
            · have h : start + (k + 1) = (start + 1) + k := by omega
              rw [h] at hor
              simpa using hor

theorem gatherKind_cols_join (read : Nat → Option Table) :
    ∀ (names : List String) (start : Nat),
      (∀ k t, k < names.length → read (start + k) = some t →
        t.cols = [names.getD k ""]) →
      joinL ((gatherKind read names start).map Table.cols) = names := by
  intro names
  induction names with
  | nil => intro start _; rfl
  | cons name rest ih =>
      intro start h
      simp only [gatherKind, List.map_cons, joinL_cons]
      have hhead :
          (match read start with
           | some t => t
           | none => emptyTable name).cols = [name] := by
        cases hr : read start with
        | some t =>
            have := h 0 t (by simp) (by simpa using hr)
            simpa using this
        | none => rfl
      rw [hhead]
      have htail := ih (start + 1) (fun k t hk hr => by
        have hs : (start + 1) + k = start + (k + 1) := by omega
        rw [hs] at hr
        have := h (k + 1) t (by simp only [List.length_cons]; omega) hr
        simpa using this)
      rw [htail]
      rfl

theorem gatherKind_congr (read₁ read₂ : Nat → Option Table) :
    ∀ (names : List String) (start : Nat),
      (∀ k, k < names.length → read₁ (start + k) = read₂ (start + k)) →
      gatherKind read₁ names start = gatherKind read₂ names start := by
  intro names
  induction names with
  | nil => intro start _; rfl
  | cons name rest ih =>
      intro start h
      have h0 : read₁ start = read₂ start := by simpa using h 0 (by simp)
      have htail := ih (start + 1) (fun k hk => by
        have hs : (start + 1) + k = start + (k + 1) := by omega
        rw [hs]
        exact h (k + 1) (by simp only [List.length_cons]; omega))
      simp [gatherKind, h0, htail]

theorem find?_map_pair_of_mem (g : String → List (Option String)) :
    ∀ (idx : List String) (r : String), r ∈ idx →
      (idx.map (fun x => (x, g x))).find? (fun p => decide (p.1 = r)) = some (r, g r) := by
  intro idx
  induction idx with
  | nil => intro r hr; exact absurd hr (by simp)
  | cons x xs ih =>
      intro r hr
      by_cases hx : x = r
      · subst hx
        simp [List.find?_cons]
      · have hr' : r ∈ xs := by
          rcases List.mem_cons.mp hr with h | h
          · exact absurd h.symm hx
          · exact h
        simp [List.find?_cons, hx, ih r hr']

theorem find?_map_pair_of_not_mem (g : String → List (Option String)) :
    ∀ (idx : List String) (r : String), r ∉ idx →
      (idx.map (fun x => (x, g x))).find? (fun p => decide (p.1 = r)) = none := by
  intro idx
  induction idx with
  | nil => intro r _; rfl
  | cons x xs ih =>
      intro r hr
      have hx : ¬(x = r) := fun h => hr (by simp [h])
      have hr' : r ∉ xs := fun h => hr (by simp [h])
      simp [List.find?_cons, hx, ih r hr']

theorem find?_rows_eq_none_of_not_mem (t : Table) (r : String) (h : r ∉ t.labels) :
    t.rows.find? (fun p => decide (p.1 = r)) = none := by
  rw [List.find?_eq_none]
  intro p hp
  simp only [decide_eq_true_eq]
  intro hpr
  exact h (by simpa [Table.labels, hpr] using List.mem_map_of_mem Prod.fst hp)

theorem mergeTables_cols (ts : List Table) :
    (mergeTables ts).cols = joinL (ts.map Table.cols) := rfl

theorem mergeTables_labels (ts : List Table) :
    (mergeTables ts).labels = (joinL (ts.map Table.labels)).dedup := by
  simp [mergeTables, Table.labels, List.map_map, Function.comp_def]

theorem rowOf_length_one (t : Table) (h1 : t.cols.length = 1)
    (h2 : ∀ p ∈ t.rows, p.2.length = 1) (r : String) : (rowOf t r).length = 1 := by
  unfold rowOf
  cases hf : t.rows.find? (fun p => decide (p.1 = r)) with
  | some p => exact h2 p (List.mem_of_find?_eq_some hf)
  | none => simp [h1]

theorem rowOf_getD_zero (t : Table) (r : String) :
    (rowOf t r).getD 0 none = t.cell r 0 := by
  unfold rowOf Table.cell
  cases hf : t.rows.find? (fun p => decide (p.1 = r)) with
  | some p => rfl
  | none =>
      cases hc : t.cols.length with
      | zero => rfl
      | succ m => simp [List.replicate]

theorem mergeTables_cell (ts : List Table)
    (h1 : ∀ t ∈ ts, t.cols.length = 1)
    (h2 : ∀ t ∈ ts, ∀ p ∈ t.rows, p.2.length = 1)
    (i : Nat) (hi : i < ts.length) (r : String) :
    (mergeTables ts).cell r i = (ts.getD i default).cell r 0 := by
  have hmem : ts.getD i default ∈ ts := by
    rw [List.getD_eq_getElem ts default hi]
    exact List.getElem_mem hi
  by_cases hr : r ∈ (joinL (ts.map Table.labels)).dedup
  · have hfind := find?_map_pair_of_mem
      (fun x => joinL (ts.map (fun t => rowOf t x)))
      ((joinL (ts.map Table.labels)).dedup) r hr
    simp only [] at hfind
    have hcell : (mergeTables ts).cell r i =
        (joinL (ts.map (fun t => rowOf t r))).getD i none := by
      unfold Table.cell
      rw [show (mergeTables ts).rows =
          ((joinL (ts.map Table.labels)).dedup).map
            (fun x => (x, joinL (ts.map (fun t => rowOf t x)))) from rfl]
      rw [hfind]
    rw [hcell]
    have hblocks : ∀ b ∈ ts.map (fun t => rowOf t r), b.length = 1 := by
      intro b hb
      rcases List.mem_map.mp hb with ⟨t, ht, rfl⟩
      exact rowOf_length_one t (h1 t ht) (h2 t ht) r
    have hi' : i < (ts.map (fun t => rowOf t r)).length := by simpa using hi
    rw [joinL_getD_len1 none (ts.map (fun t => rowOf t r)) i hblocks hi']
    rw [getD_map_of_lt (fun t => rowOf t r) [] default ts i hi]
    exact rowOf_getD_zero _ r
  · have hfind := find?_map_pair_of_not_mem
      (fun x => joinL (ts.map (fun t => rowOf t x)))
      ((joinL (ts.map Table.labels)).dedup) r hr
    simp only [] at hfind
    have hlab : r ∉ (ts.getD i default).labels := by
      intro hmem'
      exact hr (by
        rw [List.mem_dedup]
        exact mem_joinL.mpr ⟨(ts.getD i default).labels,
          List.mem_map_of_mem Table.labels hmem, hmem'⟩)
    have hcell : (mergeTables ts).cell r i = none := by
      unfold Table.cell
      rw [show (mergeTables ts).rows =
          ((joinL (ts.map Table.labels)).dedup).map
            (fun x => (x, joinL (ts.map (fun t => rowOf t x)))) from rfl]
      rw [hfind]
    rw [hcell]
    unfold Table.cell
    rw [find?_rows_eq_none_of_not_mem _ _ hlab]

theorem concatTables_gather (read : Nat → Option Table) (names : List String)
    (start : Nat) (h : names ≠ []) :
    concatTables (gatherKind read names start) =
      some (mergeTables (gatherKind read names start)) := by
  cases names with
  | nil => exact absurd rfl h
  | cons name rest => rfl

/-! ### Filesystem and collection-run lemmas -/

theorem FS.lookup_cons_self (p : FPath) (c : String) (fs : FS) :
    FS.lookup ((p, c) :: fs) p = some c := by
  simp [FS.lookup]

theorem FS.lookup_cons_ne (q : FPath) (c : String) (fs : FS) (p : FPath) (h : q ≠ p) :
    FS.lookup ((q, c) :: fs) p = FS.lookup fs p := by
  simp [FS.lookup, h]

theorem ResultKind.file_injective (k k' : ResultKind) (h : k.file = k'.file) : k = k' := by
  cases k <;> cases k' <;> first | rfl | exact absurd h (by decide)

theorem outPath_inj (outDir : FPath) (k k' : ResultKind) (h : outPath outDir k = outPath outDir k') :
    k = k' := by
  unfold outPath at h
  have := List.append_cancel_left h
  exact ResultKind.file_injective k k' (by simpa using this)

theorem collect_ok (cfg : CollectCfg) (env : Env) (fs : FS) (expression : Table)
    (hdata : (FS.lookup fs cfg.dataPath).bind parseTable = some expression)
    (hne : expression.cols ≠ [])
    (hw : ∀ k : ResultKind, outPath cfg.outDir k ∉ env.badPaths) :
    collectCompassResults cfg env fs = .ok
      ((outPath cfg.outDir .uptake,
          renderTable (mergedTable fs cfg expression.cols .uptake)) ::
       (outPath cfg.outDir .secretions,
          renderTable (mergedTable fs cfg expression.cols .secretions)) ::
       (outPath cfg.outDir .reactions,
          renderTable (mergedTable fs cfg expression.cols .reactions)) :: fs) := by
  simp only [collectCompassResults, hdata]
  rw [concatTables_gather _ _ _ hne, concatTables_gather _ _ _ hne,
      concatTables_gather _ _ _ hne]
  simp only [writeFile, if_neg (hw ResultKind.reactions), if_neg (hw ResultKind.secretions),
    if_neg (hw ResultKind.uptake), mergedTable]

theorem runJobs_error (solve : Nat → Except String Unit) :
    ∀ (l : List Nat) (acc : Nat), (∃ i ∈ l, ∃ e, solve i = .error e) →
      isOkE (runJobs solve l acc) = false := by
  intro l
  induction l with
  | nil => intro acc h; simp at h
  | cons i rest ih =>
      intro acc h
      cases hs : solve i with
      | error e => simp [runJobs, hs, isOkE]
      | ok u =>
          rcases h with ⟨j, hj, e, he⟩
          rcases List.mem_cons.mp hj with rfl | hj'
          · rw [hs] at he; exact absurd he (by simp)
          · simp only [runJobs, hs]
            exact ih (acc + 1) ⟨j, hj', e, he⟩

theorem runJobs_ok (solve : Nat → Except String Unit) :
    ∀ (l : List Nat) (acc m : Nat), runJobs solve l acc = .ok m →
      m = acc + l.length ∧ ∀ i ∈ l, solve i = .ok () := by
  intro l
  induction l with
  | nil =>
      intro acc m h
      simp only [runJobs] at h
      cases h
      simp
  | cons i rest ih =>
      intro acc m h
      cases hs : solve i with
      | error e => rw [runJobs, hs] at h; cases h
      | ok u =>
          rw [runJobs, hs] at h
          rcases ih (acc + 1) m h with ⟨hm, hall⟩
          refine ⟨by simp only [List.length_cons]; omega, ?_⟩
          intro j hj
          rcases List.mem_cons.mp hj with rfl | hj'
          · cases u; exact hs
          · exact hall j hj'

theorem outPath_ne (outDir : FPath) {k k' : ResultKind} (h : k ≠ k') :
    outPath outDir k ≠ outPath outDir k' :=
  fun he => h (outPath_inj outDir k k' he)

theorem lookup_chain (outDir : FPath) (fs : FS) (cu cs cr : String) :
    ∀ k : ResultKind,
      FS.lookup
        ((outPath outDir .uptake, cu) :: (outPath outDir .secretions, cs) ::
          (outPath outDir .reactions, cr) :: fs) (outPath outDir k) =
        some (match k with
          | .reactions => cr
          | .secretions => cs
          | .uptake => cu) := by
  intro k
  cases k with
  | reactions =>
      rw [FS.lookup_cons_ne _ _ _ _ (outPath_ne outDir (by decide)),
          FS.lookup_cons_ne _ _ _ _ (outPath_ne outDir (by decide)),
          FS.lookup_cons_self]
  | secretions =>
      rw [FS.lookup_cons_ne _ _ _ _ (outPath_ne outDir (by decide)),
          FS.lookup_cons_self]
  | uptake => rw [FS.lookup_cons_self]

/-! ### Claim theorems -/

/-- Claim C1, counterexample: with a matrix whose header carries zero sample
columns (every work directory trivially empty or missing), collection does not
produce three merged tables with N = 0 columns; `pd.concat` of the empty list
of gathered frames raises, the run aborts, and no merged output file is
written. -/
theorem collect_zero_samples_raises_counterexample :
    collectCompassResults { dataPath := ["d"], tempDir := ["t"], outDir := ["o"] }
        { badPaths := [] } [(["d"], "gene")] =
      .error (.mergeError, [(["d"], "gene")]) ∧
    FS.lookup (collectResultFS (collectCompassResults
        { dataPath := ["d"], tempDir := ["t"], outDir := ["o"] }
        { badPaths := [] } [(["d"], "gene")])) (outPath ["o"] .reactions) = none ∧
    FS.lookup (collectResultFS (collectCompassResults
        { dataPath := ["d"], tempDir := ["t"], outDir := ["o"] }
        { badPaths := [] } [(["d"], "gene")])) (outPath ["o"] .secretions) = none ∧
    FS.lookup (collectResultFS (collectCompassResults
        { dataPath := ["d"], tempDir := ["t"], outDir := ["o"] }
        { badPaths := [] } [(["d"], "gene")])) (outPath ["o"] .uptake) = none :=
  ⟨rfl, rfl, rfl, rfl⟩

/-- Claim C1, amended: for every sample count N ≥ 1 and every subset of
samples whose work directory is empty or missing, a collection run whose
matrix parses and whose output paths are writable writes all three merged
tables, and each merged table has exactly the matrix-header sample
identifiers as its columns, in original matrix-column order (successfully
read per-sample tables are assumed to carry their sample's single column, as
the solver contract guarantees; failed reads are covered by the placeholder
unconditionally). -/
theorem collect_merged_columns_in_order
    (cfg : CollectCfg) (env : Env) (fs : FS) (expression : Table)
    (hdata : (FS.lookup fs cfg.dataPath).bind parseTable = some expression)
    (hne : expression.cols ≠ [])
    (hw : ∀ k : ResultKind, outPath cfg.outDir k ∉ env.badPaths)
    (hc : ∀ (k : ResultKind) (i : Nat) (t : Table), i < expression.cols.length →
      readSampleTable fs cfg.tempDir i k = some t →
      t.cols = [expression.cols.getD i ""]) :
    ∀ k : ResultKind,
      FS.lookup (collectResultFS (collectCompassResults cfg env fs))
          (outPath cfg.outDir k) =
        some (renderTable (mergedTable fs cfg expression.cols k)) ∧
      (mergedTable fs cfg expression.cols k).cols = expression.cols := by
  intro k
  constructor
  · rw [collect_ok cfg env fs expression hdata hne hw]
    simp only [collectResultFS]
    rw [lookup_chain]
    cases k <;> rfl
  · rw [mergedTable, mergeTables_cols]
    exact gatherKind_cols_join _ expression.cols 0
      (fun j t hj hr => hc k j t hj (by simpa using hr))

/-- Claim C1, witness: one sample `s1` whose work directory is missing; the
merged reactions table is written and has exactly the column `s1`. -/
theorem collect_merged_columns_in_order_witness :
    FS.lookup (collectResultFS (collectCompassResults
        { dataPath := ["d"], tempDir := ["t"], outDir := ["o"] }
        { badPaths := [] } [(["d"], "gene\ts1")])) (outPath ["o"] .reactions) =
      some (renderTable (mergedTable [(["d"], "gene\ts1")]
        { dataPath := ["d"], tempDir := ["t"], outDir := ["o"] } ["s1"] .reactions)) ∧
    (mergedTable [(["d"], "gene\ts1")]
        { dataPath := ["d"], tempDir := ["t"], outDir := ["o"] } ["s1"] .reactions).cols =
      ["s1"] :=
  collect_merged_columns_in_order
    { dataPath := ["d"], tempDir := ["t"], outDir := ["o"] } { badPaths := [] }
    [(["d"], "gene\ts1")] { cols := ["s1"], rows := [] } rfl (by decide)
    (fun k => List.not_mem_nil _) (fun k i t hi h => Option.noConfusion h) .reactions

/-- Claim C2: on any per-sample read failure the gather loop substitutes an
empty table whose sole column is that sample's identifier from the matrix
header; and for every filesystem state of the sample files — absent,
unparsable, or whole directories missing — a collection run with a parsable
nonempty matrix and writable output paths completes without raising. -/
theorem collect_read_failure_placeholder :
    (∀ (read : Nat → Option Table) (names : List String) (i : Nat),
        i < names.length → read i = none →
        (gatherKind read names 0).length = names.length ∧
        (gatherKind read names 0).getD i default = emptyTable (names.getD i "")) ∧
    (∀ (cfg : CollectCfg) (env : Env) (fs : FS) (expression : Table),
        (FS.lookup fs cfg.dataPath).bind parseTable = some expression →
        expression.cols ≠ [] →
        (∀ k : ResultKind, outPath cfg.outDir k ∉ env.badPaths) →
        isOkE (collectCompassResults cfg env fs) = true) := by
  constructor
  · intro read names i hi hread
    refine ⟨gatherKind_length read names 0, ?_⟩
    rw [gatherKind_getD read names 0 i hi]
    simp [hread]
  · intro cfg env fs expression hdata hne hw
    rw [collect_ok cfg env fs expression hdata hne hw]
    rfl

/-- Claim C2, witness: sample 0's reactions file exists but is unparsable (a
ragged row), sample 0's other tables and directories are absent; the
placeholder carries the header name and the run completes. -/
theorem collect_read_failure_placeholder_witness :
    ((gatherKind (fun _ => none) ["s1"] 0).length = 1 ∧
     (gatherKind (fun _ => none) ["s1"] 0).getD 0 default = emptyTable "s1") ∧
    isOkE (collectCompassResults { dataPath := ["d"], tempDir := ["t"], outDir := ["o"] }
        { badPaths := [] }
        [(["d"], "gene\ts1"), (["t", "sample0", "reactions.txt"], "h\tc1\nrow")]) = true :=
  ⟨collect_read_failure_placeholder.1 (fun _ => none) ["s1"] 0 (by decide) rfl,
   collect_read_failure_placeholder.2
     { dataPath := ["d"], tempDir := ["t"], outDir := ["o"] } { badPaths := [] }
     [(["d"], "gene\ts1"), (["t", "sample0", "reactions.txt"], "h\tc1\nrow")]
     { cols := ["s1"], rows := [] } rfl (by decide) (fun k => List.not_mem_nil _)⟩

/-- Claim C3: for gathered per-sample tables (one data column each, as the
solver contract guarantees), the merged table's row set is exactly the union
of the row labels of the successfully read per-sample tables, and the cell of
the merged table in sample `i`'s column at row `r` is exactly sample `i`'s own
value there — in particular a missing value when row `r` is absent from that
sample's table, affecting only that sample's column. -/
theorem merge_row_union_alignment
    (read : Nat → Option Table) (names : List String)
    (hc : ∀ (i : Nat) (t : Table), read i = some t →
      t.cols.length = 1 ∧ ∀ p ∈ t.rows, p.2.length = 1) :
    (∀ r : String,
        r ∈ (mergeTables (gatherKind read names 0)).labels ↔
          ∃ i t, i < names.length ∧ read i = some t ∧ r ∈ t.labels) ∧
    (∀ (i : Nat) (r : String), i < names.length →
        (mergeTables (gatherKind read names 0)).cell r i =
          match read i with
          | some t => t.cell r 0
          | none => none) := by
  constructor
  · intro r
    rw [mergeTables_labels, List.mem_dedup, mem_joinL]
    constructor
    · rintro ⟨l, hl, hrl⟩
      rcases List.mem_map.mp hl with ⟨t, ht, rfl⟩
      rcases (mem_gatherKind read names 0 t).mp ht with ⟨k, hk, hor⟩
      rcases hor with hsome | ⟨_, rfl⟩
      · exact ⟨k, t, hk, by simpa using hsome, hrl⟩
      · exact absurd hrl (by simp [emptyTable, Table.labels])
    · rintro ⟨i, t, hi, hread, hrt⟩
      refine ⟨t.labels, List.mem_map_of_mem Table.labels ?_, hrt⟩
      exact (mem_gatherKind read names 0 t).mpr ⟨i, hi, Or.inl (by simpa using hread)⟩
  · intro i r hi
    have h1 : ∀ t ∈ gatherKind read names 0, t.cols.length = 1 := by
      intro t ht
      rcases (mem_gatherKind read names 0 t).mp ht with ⟨k, hk, hor⟩
      rcases hor with hsome | ⟨_, rfl⟩
      · exact (hc _ t (by simpa using hsome)).1
      · simp [emptyTable]
    have h2 : ∀ t ∈ gatherKind read names 0, ∀ p ∈ t.rows, p.2.length = 1 := by
      intro t ht
      rcases (mem_gatherKind read names 0 t).mp ht with ⟨k, hk, hor⟩
      rcases hor with hsome | ⟨_, rfl⟩
      · exact (hc _ t (by simpa using hsome)).2
      · simp [emptyTable]
    have hlen : i < (gatherKind read names 0).length := by
      rw [gatherKind_length]; exact hi
    rw [mergeTables_cell _ h1 h2 i hlen r]
    rw [gatherKind_getD read names 0 i hi]
    simp only [Nat.zero_add]
    cases hread : read i with
    | some t => rfl
    | none => rfl

/-- Claim C3, witness: two samples, only `s1` read successfully with rows
`r1`, `r2`; row `r1` is in the merged row set, sample 1's column is missing at
`r1`, and sample 0's column reproduces its own value. -/
theorem merge_row_union_alignment_witness :
    ("r1" ∈ (mergeTables (gatherKind readW3 ["s1", "s2"] 0)).labels) ∧
    (mergeTables (gatherKind readW3 ["s1", "s2"] 0)).cell "r1" 1 = none ∧
    (mergeTables (gatherKind readW3 ["s1", "s2"] 0)).cell "r1" 0 = some "1.0" := by
  have H := merge_row_union_alignment readW3 ["s1", "s2"]
    (fun i t h => by
      cases i with
      | zero => cases h; exact ⟨by decide, by decide⟩
      | succ n => exact Option.noConfusion h)
  refine ⟨?_, H.2 1 "r1" (by decide), H.2 0 "r1" (by decide)⟩
  exact (H.1 "r1").mpr
    ⟨0, Table.mk ["s1"] [("r1", [some "1.0"]), ("r2", [some "2.0"])], by decide, rfl, by decide⟩

/-- Claim C9: for a successfully read per-sample table, the column label that
reaches the merged table is the one stored inside the file, not the
matrix-header sample identifier; only the placeholder for a failed read
carries the header-derived identifier. -/
theorem merged_column_label_from_file
    (read : Nat → Option Table) (names : List String)
    (hc : ∀ (j : Nat) (t : Table), read j = some t → t.cols.length = 1) :
    ∀ i : Nat, i < names.length →
      (mergeTables (gatherKind read names 0)).cols.getD i "" =
        match read i with
        | some t => t.cols.getD 0 ""
        | none => names.getD i "" := by
  intro i hi
  rw [mergeTables_cols]
  have hblocks : ∀ b ∈ (gatherKind read names 0).map Table.cols, b.length = 1 := by
    intro b hb
    rcases List.mem_map.mp hb with ⟨t, ht, rfl⟩
    rcases (mem_gatherKind read names 0 t).mp ht with ⟨k, hk, hor⟩
    rcases hor with hsome | ⟨_, rfl⟩
    · exact hc _ t (by simpa using hsome)
    · simp [emptyTable]
  have hlen : i < (gatherKind read names 0).length := by
    rw [gatherKind_length]; exact hi
  have hi' : i < ((gatherKind read names 0).map Table.cols).length := by
    simpa using hlen
  rw [joinL_getD_len1 "" _ i hblocks hi']
  rw [getD_map_of_lt Table.cols [] default _ i hlen]
  rw [gatherKind_getD read names 0 i hi]
  simp only [Nat.zero_add]
  cases hread : read i with
  | some t => rfl
  | none => rfl

/-- Claim C9, witness: sample 0's file stores the column label `weird`, which
is what the merged table shows at position 0, while failed sample 1 shows the
header name `s2`. -/
theorem merged_column_label_from_file_witness :
    (mergeTables (gatherKind readW9 ["s1", "s2"] 0)).cols.getD 0 "" = "weird" ∧
    (mergeTables (gatherKind readW9 ["s1", "s2"] 0)).cols.getD 1 "" = "s2" := by
  have H := merged_column_label_from_file readW9 ["s1", "s2"]
    (fun j t h => by
      cases j with
      | zero => cases h; decide
      | succ n => exact Option.noConfusion h)
  exact ⟨H 0 (by decide), H 1 (by decide)⟩

/-- Claim C4, counterexample: one sample, writable secretions and uptake
paths, but an unwritable reactions path; the run aborts on the reactions
write, and the secretions and uptake tables — although their own merges and
writes would have succeeded — are never produced. A failure confined to one
kind does prevent the other kinds from being collected. -/
theorem collect_kind_failure_not_isolated_counterexample :
    collectCompassResults { dataPath := ["d"], tempDir := ["t"], outDir := ["o"] }
        { badPaths := [["o", "reactions.txt"]] } [(["d"], "gene\ts1")] =
      .error (.outputWrite, [(["d"], "gene\ts1")]) ∧
    FS.lookup (collectResultFS (collectCompassResults
        { dataPath := ["d"], tempDir := ["t"], outDir := ["o"] }
        { badPaths := [["o", "reactions.txt"]] } [(["d"], "gene\ts1")]))
      (outPath ["o"] .secretions) = none ∧
    FS.lookup (collectResultFS (collectCompassResults
        { dataPath := ["d"], tempDir := ["t"], outDir := ["o"] }
        { badPaths := [["o", "reactions.txt"]] } [(["d"], "gene\ts1")]))
      (outPath ["o"] .uptake) = none ∧
    outPath ["o"] .secretions ∉ [[("o" : String), "reactions.txt"]] ∧
    outPath ["o"] .uptake ∉ [[("o" : String), "reactions.txt"]] :=
  ⟨rfl, rfl, rfl, by decide, by decide⟩

/-- Claim C4, amended: the three result kinds are merged and written strictly
in sequence (reactions, then secretions, then uptake) with no error isolation
between kinds: when every output path is writable all three merged tables are
written, but a write failure on one kind aborts collection at that point and
the later kinds are not merged or written. -/
theorem collect_kinds_sequential
    (cfg : CollectCfg) (env : Env) (fs : FS) (expression : Table)
    (hdata : (FS.lookup fs cfg.dataPath).bind parseTable = some expression)
    (hne : expression.cols ≠ []) :
    ((∀ k : ResultKind, outPath cfg.outDir k ∉ env.badPaths) →
        ∀ k : ResultKind,
          FS.lookup (collectResultFS (collectCompassResults cfg env fs))
              (outPath cfg.outDir k) =
            some (renderTable (mergedTable fs cfg expression.cols k))) ∧
    (outPath cfg.outDir .reactions ∈ env.badPaths →
        collectCompassResults cfg env fs = .error (.outputWrite, fs)) ∧
    (outPath cfg.outDir .reactions ∉ env.badPaths →
      outPath cfg.outDir .secretions ∈ env.badPaths →
        collectCompassResults cfg env fs = .error (.outputWrite,
          (outPath cfg.outDir .reactions,
            renderTable (mergedTable fs cfg expression.cols .reactions)) :: fs)) := by
  refine ⟨?_, ?_, ?_⟩
  · intro hw k
    rw [collect_ok cfg env fs expression hdata hne hw]
    simp only [collectResultFS]
    rw [lookup_chain]
    cases k <;> rfl
  · intro hbad
    simp only [collectCompassResults, hdata]
    rw [concatTables_gather _ _ _ hne]
    simp only [writeFile, if_pos hbad]
  · intro hr hs
    simp only [collectCompassResults, hdata]
    rw [concatTables_gather _ _ _ hne, concatTables_gather _ _ _ hne]
    simp only [writeFile, if_neg hr, if_pos hs, mergedTable]

/-- Claim C4 witness: with only the secretions path unwritable, the run writes
the reactions table, then aborts; uptake is never attempted. -/
theorem collect_kinds_sequential_witness :
    collectCompassResults { dataPath := ["d"], tempDir := ["t"], outDir := ["o"] }
        { badPaths := [["o", "secretions.txt"]] } [(["d"], "gene\ts1")] =
      .error (.outputWrite,
        (outPath ["o"] .reactions,
          renderTable (mergedTable [(["d"], "gene\ts1")]
            { dataPath := ["d"], tempDir := ["t"], outDir := ["o"] } ["s1"] .reactions)) ::
        [(["d"], "gene\ts1")]) :=
  (collect_kinds_sequential { dataPath := ["d"], tempDir := ["t"], outDir := ["o"] }
    { badPaths := [["o", "secretions.txt"]] } [(["d"], "gene\ts1")]
    { cols := ["s1"], rows := [] } rfl (by decide)).2.2 (by decide) (by decide)

theorem entry_medias (args : ParsedArgs) (cpu : Int) (nSamples : Nat) :
    ∀ m ∈ (entry args cpu nSamples).medias, m = args.media := by
  intro m hm
  unfold entry at hm
  cases hss : args.single_sample with
  | some i =>
      rw [hss] at hm
      simpa [EntryAction.medias, singleJob] using hm
  | none =>
      rw [hss] at hm
      cases htq : args.torque_queue with
      | some q =>
          rw [htq] at hm
          simpa [EntryAction.medias] using hm
      | none =>
          rw [htq] at hm
          by_cases hcol : args.collect
          · simp [hcol, EntryAction.medias] at hm
          · rw [if_neg hcol] at hm
            replace hm : m ∈ ((List.range nSamples).map
                (parallelMapFun args.data args.model args.media args.temp_dir
                  args.lambda_)).map (fun j => j.call.media) := hm
            rcases List.mem_map.mp hm with ⟨j, hj, rfl⟩
            rcases List.mem_map.mp hj with ⟨i, _, rfl⟩
            rfl

/-- Claim C5, counterexample: with the media argument unspecified, the solver
invocation receives the string `"None"` — argparse's defaulting in
`parseArgs` is `args['media'] = 'None'` — not the sentinel
`"no media specified"`. -/
theorem media_sentinel_counterexample :
    parseArgs rawNoMedia = .ok parsedNoMedia ∧
    (entry parsedNoMedia 4 1).medias = ["None"] ∧
    ("None" : String) ≠ "no media specified" :=
  ⟨rfl, rfl, by decide⟩

/-- Claim C5, amended: when the media argument is unspecified, every
subsequent solver invocation or queue submission — single-sample, local batch,
or Torque path — receives the sentinel string `"None"` in place of a media
name. -/
theorem media_default_is_none_string
    (raw : RawArgs) (parsed : ParsedArgs) (cpu : Int) (nSamples : Nat)
    (hm : raw.media = none) (hp : parseArgs raw = .ok parsed) :
    ∀ m ∈ (entry parsed cpu nSamples).medias, m = "None" := by
  have hmedia : parsed.media = "None" := by
    unfold parseArgs at hp
    split at hp
    · cases hp
    · cases hp
      simp [resolveMedia, hm]
  intro m hmem
  rw [entry_medias parsed cpu nSamples m hmem, hmedia]

/-- Claim C5 witness: the single-sample invocation of `rawNoMedia` carries the
media value `"None"`. -/
theorem media_default_is_none_string_witness : ("None" : String) = "None" :=
  media_default_is_none_string rawNoMedia parsedNoMedia 4 1 rfl rfl "None"
    (by simp [entry, parsedNoMedia, EntryAction.medias, singleJob])

/-- Claim C6: in a locally dispatched batch, if any single job's solver call
raises then the whole batch run raises (fail-fast), and conversely a batch
that completes has run every job without an exception and counted all N
completions — no per-sample solver exception is silently skipped. -/
theorem local_dispatch_fail_fast (solve : Nat → Except String Unit) (n : Nat) :
    ((∃ i, i < n ∧ ∃ e, solve i = .error e) →
        isOkE (runLocalBatch solve n) = false) ∧
    (∀ m, runLocalBatch solve n = .ok m →
        m = n ∧ ∀ i, i < n → solve i = .ok ()) := by
  constructor
  · rintro ⟨i, hi, e, he⟩
    exact runJobs_error solve (List.range n) 0 ⟨i, List.mem_range.mpr hi, e, he⟩
  · intro m h
    rcases runJobs_ok solve (List.range n) 0 m h with ⟨hm, hall⟩
    exact ⟨by simpa using hm, fun i hi => hall i (List.mem_range.mpr hi)⟩

/-- Claim C6 witness: a three-job batch in which job 1 raises does not
complete. -/
theorem local_dispatch_fail_fast_witness :
    isOkE (runLocalBatch solveW6 3) = false :=
  (local_dispatch_fail_fast solveW6 3).1 ⟨1, by decide, "boom", rfl⟩

/-- Claim C7: a requested local worker count is clamped to the minimum of the
request and the available execution units; an unspecified count resolves to
all available units; and an entry run requesting more workers than the
available units behaves identically to one requesting exactly the available
units. -/
theorem worker_count_clamped :
    (∀ w cpu : Int, resolveNumProcesses (some w) cpu = min w cpu) ∧
    (∀ cpu : Int, resolveNumProcesses none cpu = cpu) ∧
    (∀ (args : ParsedArgs) (cpu : Int) (nSamples : Nat) (w : Int), cpu ≤ w →
        entry { args with num_processes := some w } cpu nSamples =
          entry { args with num_processes := some cpu } cpu nSamples) := by
  refine ⟨?_, ?_, ?_⟩
  · intro w cpu
    simp only [resolveNumProcesses]
    split <;> omega
  · intro cpu
    simp [resolveNumProcesses]
  · intro args cpu nSamples w hw
    have hres : resolveNumProcesses (some w) cpu = resolveNumProcesses (some cpu) cpu := by
      simp only [resolveNumProcesses]
      split <;> split <;> omega
    cases hss : args.single_sample <;> cases htq : args.torque_queue <;>
      by_cases hcol : args.collect <;> simp [entry, hss, htq, hcol, hres, singleJob]

/-- Claim C7 witness: requesting 5 workers on a 2-unit host dispatches exactly
as requesting 2 workers. -/
theorem worker_count_clamped_witness :
    entry { argsW7 with num_processes := some 5 } 2 3 =
      entry { argsW7 with num_processes := some 2 } 2 3 :=
  worker_count_clamped.2.2 argsW7 2 3 5 (by decide)

/-- Claim C10: in single-sample mode `entry` invokes the solver with the temp
directory itself as destination, creating no index-derived sample
subdirectory and redirecting no streams into capture files — in contrast to a
job dispatched through the local worker pool, whose invocation targets the
created `temp_dir/sample<i>` directory (a strict extension of the temp
directory) with stdout and stderr captured in `out.log` and `err.log`
inside it. -/
theorem single_sample_uses_temp_dir
    (args : ParsedArgs) (i : Nat) (cpu : Int) (nSamples : Nat)
    (h : args.single_sample = some i) :
    entry args cpu nSamples = .singleSample (singleJob args i) ∧
    (singleJob args i).call.directory = args.temp_dir ∧
    (singleJob args i).createdDir = none ∧
    (singleJob args i).redirects = none ∧
    (∀ (data : FPath) (model media : String) (temp_dir : FPath) (lam : Rat) (j : Nat),
      (parallelMapFun data model media temp_dir lam j).call.directory =
          sampleDir temp_dir j ∧
      (parallelMapFun data model media temp_dir lam j).createdDir =
          some (sampleDir temp_dir j) ∧
      (parallelMapFun data model media temp_dir lam j).redirects =
          some (sampleDir temp_dir j ++ ["out.log"], sampleDir temp_dir j ++ ["err.log"]) ∧
      sampleDir temp_dir j ≠ temp_dir) := by
  refine ⟨?_, rfl, rfl, rfl, ?_⟩
  · unfold entry
    rw [h]
  · intro data model media temp_dir lam j
    refine ⟨rfl, rfl, rfl, fun he => ?_⟩
    have := congrArg List.length he
    simp [sampleDir] at this

/-- Claim C10 witness: with `single_sample = 2`, `entry` calls the solver
directly on the temp directory. -/
theorem single_sample_uses_temp_dir_witness :
    entry argsW10 4 1 = .singleSample (singleJob argsW10 2) ∧
    (singleJob argsW10 2).call.directory = ["t"] := by
  have H := single_sample_uses_temp_dir argsW10 2 4 1 rfl
  exact ⟨H.1, H.2.1⟩

theorem collectResultFS_ok (x : FS) :
    collectResultFS (Except.ok x : Except (CollectError × FS) FS) = x := rfl

/-- Claim C8: running collection twice over the same data file, temp
directory and output directory, with nothing else changing in between,
succeeds both times and leaves identical bytes in each merged output file
(the second run reads exactly what the first run read, because the written
output paths are distinct from the data path and from every per-sample file
path). -/
theorem collect_idempotent
    (cfg : CollectCfg) (env : Env) (fs : FS) (expression : Table)
    (hdata : (FS.lookup fs cfg.dataPath).bind parseTable = some expression)
    (hne : expression.cols ≠ [])
    (hw : ∀ k : ResultKind, outPath cfg.outDir k ∉ env.badPaths)
    (hd : ∀ k : ResultKind, cfg.dataPath ≠ outPath cfg.outDir k)
    (hs : ∀ i, i < expression.cols.length → ∀ k j : ResultKind,
        samplePath cfg.tempDir i k ≠ outPath cfg.outDir j) :
    isOkE (collectCompassResults cfg env fs) = true ∧
    isOkE (collectCompassResults cfg env
        (collectResultFS (collectCompassResults cfg env fs))) = true ∧
    ∀ k : ResultKind,
      FS.lookup (collectResultFS (collectCompassResults cfg env
          (collectResultFS (collectCompassResults cfg env fs))))
          (outPath cfg.outDir k) =
        FS.lookup (collectResultFS (collectCompassResults cfg env fs))
          (outPath cfg.outDir k) := by
  have h1 := collect_ok cfg env fs expression hdata hne hw
  have hlookup1 : ∀ p : FPath, (∀ k : ResultKind, p ≠ outPath cfg.outDir k) →
      FS.lookup (collectResultFS (collectCompassResults cfg env fs)) p =
        FS.lookup fs p := by
    intro p hp
    rw [h1]
    simp only [collectResultFS]
    rw [FS.lookup_cons_ne _ _ _ _ (fun he => hp .uptake he.symm),
        FS.lookup_cons_ne _ _ _ _ (fun he => hp .secretions he.symm),
        FS.lookup_cons_ne _ _ _ _ (fun he => hp .reactions he.symm)]
  have hdata2 : (FS.lookup (collectResultFS (collectCompassResults cfg env fs))
      cfg.dataPath).bind parseTable = some expression := by
    rw [hlookup1 cfg.dataPath hd]
    exact hdata
  have hreads : ∀ k : ResultKind,
      mergedTable (collectResultFS (collectCompassResults cfg env fs)) cfg
          expression.cols k =
        mergedTable fs cfg expression.cols k := by
    intro k
    unfold mergedTable
    have hg := gatherKind_congr
      (fun i => readSampleTable (collectResultFS (collectCompassResults cfg env fs))
        cfg.tempDir i k)
      (fun i => readSampleTable fs cfg.tempDir i k) expression.cols 0
      (fun j hj => by
        simp only [Nat.zero_add]
        unfold readSampleTable
        rw [hlookup1 (samplePath cfg.tempDir j k) (fun kk => hs j hj k kk)])
    rw [hg]
  have h2 := collect_ok cfg env (collectResultFS (collectCompassResults cfg env fs))
    expression hdata2 hne hw
  refine ⟨by rw [h1]; rfl, by rw [h2]; rfl, ?_⟩
  intro k
  conv_lhs => rw [h2]
  conv_rhs => rw [h1]
  rw [collectResultFS_ok, collectResultFS_ok]
  rw [lookup_chain, lookup_chain]
  cases k <;> simp only [hreads]

/-- Claim C8 witness: a one-sample collection with a readable reactions table
and disjoint data, temp, and output directories is run twice; both runs
complete and the reactions output file is identical after the second run. -/
theorem collect_idempotent_witness :
    isOkE (collectCompassResults cfgW8 envW8 fsW8) = true ∧
    FS.lookup (collectResultFS (collectCompassResults cfgW8 envW8
        (collectResultFS (collectCompassResults cfgW8 envW8 fsW8))))
        (outPath ["o"] .reactions) =
      FS.lookup (collectResultFS (collectCompassResults cfgW8 envW8 fsW8))
        (outPath ["o"] .reactions) := by
  have H := collect_idempotent cfgW8 envW8 fsW8 { cols := ["s1"], rows := [] }
    rfl (by decide) (fun k => List.not_mem_nil _)
    (by intro k; cases k <;> decide)
    (by
      intro i hi k j
      have hi0 : i = 0 := by
        simp only [List.length_cons, List.length_nil] at hi
        omega
      subst hi0
      cases k <;> cases j <;> decide)
  exact ⟨H.1, H.2.2 .reactions⟩
